import Mathlib

/-!
Verification of the EcoNet-CEIM-PhoenixWater impact engine and CSV ingestion.

The C++ core (`src/ceim_core.cpp`) computes, for one (node, contaminant)
pair and one time series, a hazard score `Kn` and a mass load by a
piecewise-constant-rate integration.  Doubles are modelled as rationals
(`ℚ`), so every arithmetic statement is exact; `std::vector<Sample>` is a
`List Sample`.  The CSV ingestion path (`src/qpudata_csv.cpp`) is modelled
over the list of input lines, with `std::stod` modelled as a decimal /
exponent prefix parser and the exception it may throw modelled as `Except`.
-/

namespace Ceim

/-- Mirror of `struct Sample` (timeseries.hpp / ceim_core.hpp): timestamp,
inflow concentration, outflow concentration, discharge. -/
structure Sample where
  t : ℚ
  Cin : ℚ
  Cout : ℚ
  Q : ℚ
deriving DecidableEq, Repr

/-- Mirror of `struct ContaminantConfig` as seen by `computeNodeImpact`
(ceim_core.hpp): identifier, hazard weight `w`, reference concentration
`Cref`. -/
structure ContaminantConfig where
  id : String
  w : ℚ
  Cref : ℚ
deriving DecidableEq, Repr

/-- Mirror of `struct NodeConfig` as seen by `computeNodeImpact`
(ceim_core.hpp): node identifier, contaminant identifier, control volume. -/
structure NodeConfig where
  nodeId : String
  contaminantId : String
  volume : ℚ
deriving DecidableEq, Repr

/-- Mirror of `struct NodeImpactResult` (ceim_core.hpp). -/
structure NodeImpactResult where
  nodeId : String
  contaminantId : String
  Kn : ℚ
  massLoad : ℚ
deriving DecidableEq, Repr

/-- The `for (const auto& s : series)` loop of `computeNodeImpact`
(ceim_core.cpp, lines 23-42): `lastT` is the running previous timestamp,
`Kn` and `massLoad` the accumulators.  A sample with `dt <= 0` is skipped
but still advances `lastT`; otherwise `dC * Q * dt` is added to the mass
load and `w * (dC / Cref) * Q * dt` to `Kn`. -/
def integrateLoop (w Cref : ℚ) (lastT Kn massLoad : ℚ) :
    List Sample → ℚ × ℚ
  | [] => (Kn, massLoad)
  | s :: rest =>
    let dt := s.t - lastT
    if dt ≤ 0 then
      integrateLoop w Cref s.t Kn massLoad rest
    else
      let dC := s.Cin - s.Cout
      let dM := dC * s.Q * dt
      let dK := w * (dC / Cref) * s.Q * dt
      integrateLoop w Cref s.t (Kn + dK) (massLoad + dM) rest

/-- Mirror of `computeNodeImpact` (ceim_core.cpp, lines 6-45): zero result
on an empty series or a non-positive `Cref`, otherwise the loop starting
with `lastT = series.front().t` and zero accumulators. -/
def computeNodeImpact (node : NodeConfig) (cfg : ContaminantConfig)
    (series : List Sample) : NodeImpactResult :=
  match series with
  | [] =>
    { nodeId := node.nodeId, contaminantId := cfg.id, Kn := 0, massLoad := 0 }
  | s0 :: _ =>
    if cfg.Cref ≤ 0 then
      { nodeId := node.nodeId, contaminantId := cfg.id, Kn := 0, massLoad := 0 }
    else
      let acc := integrateLoop cfg.w cfg.Cref s0.t 0 0 series
      { nodeId := node.nodeId, contaminantId := cfg.id,
        Kn := acc.1, massLoad := acc.2 }

/-- Per-interval `Kn` contributions of the loop, with the skip condition
`dt <= 0` kept explicit; used to characterise `integrateLoop`. -/
def knSum (w Cref : ℚ) (lastT : ℚ) : List Sample → ℚ
  | [] => 0
  | s :: rest =>
    (if s.t - lastT ≤ 0 then 0
     else w * ((s.Cin - s.Cout) / Cref) * s.Q * (s.t - lastT)) +
    knSum w Cref s.t rest

/-- Per-interval mass-load contributions of the loop, with the skip
condition `dt <= 0` kept explicit. -/
def mlSum (lastT : ℚ) : List Sample → ℚ
  | [] => 0
  | s :: rest =>
    (if s.t - lastT ≤ 0 then 0
     else (s.Cin - s.Cout) * s.Q * (s.t - lastT)) +
    mlSum s.t rest

/-- The samples that contribute (positive `dt` against the running
anchor); a skipped sample still moves the anchor to its own timestamp. -/
def contributingSamples (lastT : ℚ) : List Sample → List Sample
  | [] => []
  | s :: rest =>
    if s.t - lastT ≤ 0 then contributingSamples s.t rest
    else s :: contributingSamples s.t rest

theorem integrateLoop_eq (w Cref : ℚ) :
    ∀ (l : List Sample) (lastT Kn massLoad : ℚ),
      integrateLoop w Cref lastT Kn massLoad l =
        (Kn + knSum w Cref lastT l, massLoad + mlSum lastT l) := by
  intro l
  induction l with
  | nil => intro lastT Kn massLoad; simp [integrateLoop, knSum, mlSum]
  | cons s rest ih =>
    intro lastT Kn massLoad
    by_cases h : s.t - lastT ≤ 0
    · simp [integrateLoop, knSum, mlSum, h, ih]
    · simp [integrateLoop, knSum, mlSum, h, ih, add_assoc]

/-- Closed-form sum for `massLoad` over consecutive pairs, following the
spec text of §4.1: each sample after the first contributes
`(Cin - Cout) * Q * dt` with `dt` the difference to the previous sample's
timestamp. -/
def specMassLoad : Sample → List Sample → ℚ
  | _, [] => 0
  | prev, s :: rest =>
    (s.Cin - s.Cout) * s.Q * (s.t - prev.t) + specMassLoad s rest

/-- Closed-form sum for `Kn` over consecutive pairs, following the spec
text of §4.1: each sample after the first contributes
`w * ((Cin - Cout) / Cref) * Q * dt`. -/
def specKn (w Cref : ℚ) : Sample → List Sample → ℚ
  | _, [] => 0
  | prev, s :: rest =>
    w * ((s.Cin - s.Cout) / Cref) * s.Q * (s.t - prev.t) + specKn w Cref s rest

theorem sums_of_chain (w Cref : ℚ) :
    ∀ (rest : List Sample) (prev : Sample),
      List.Chain' (fun a b : Sample => a.t < b.t) (prev :: rest) →
      knSum w Cref prev.t rest = specKn w Cref prev rest ∧
      mlSum prev.t rest = specMassLoad prev rest := by
  intro rest
  induction rest with
  | nil => intro prev _; simp [knSum, mlSum, specKn, specMassLoad]
  | cons s rest ih =>
    intro prev hchain
    rcases List.chain'_cons.mp hchain with ⟨hlt, htail⟩
    have hdt : ¬ s.t - prev.t ≤ 0 := by linarith
    rcases ih s htail with ⟨hk, hm⟩
    constructor
    · simp [knSum, specKn, hdt, hk]
    · simp [mlSum, specMassLoad, hdt, hm]

theorem computeNodeImpact_fields (node : NodeConfig) (cfg : ContaminantConfig)
    (s0 : Sample) (rest : List Sample) (hc : 0 < cfg.Cref) :
    (computeNodeImpact node cfg (s0 :: rest)).Kn =
      knSum cfg.w cfg.Cref s0.t (s0 :: rest) ∧
    (computeNodeImpact node cfg (s0 :: rest)).massLoad =
      mlSum s0.t (s0 :: rest) := by
  have hnot : ¬ cfg.Cref ≤ 0 := not_le.mpr hc
  simp [computeNodeImpact, hnot, integrateLoop_eq]

theorem knSum_eq_div_mul (w Cref : ℚ) :
    ∀ (l : List Sample) (lastT : ℚ),
      knSum w Cref lastT l = (w / Cref) * mlSum lastT l := by
  intro l
  induction l with
  | nil => intro lastT; simp [knSum, mlSum]
  | cons s rest ih =>
    intro lastT
    by_cases h : s.t - lastT ≤ 0
    · simp [knSum, mlSum, h, ih]
    · simp [knSum, mlSum, h, ih]; ring

theorem mlSum_nonneg :
    ∀ (l : List Sample) (lastT : ℚ),
      (∀ s ∈ contributingSamples lastT l, s.Cout < s.Cin ∧ 0 < s.Q) →
      0 ≤ mlSum lastT l := by
  intro l
  induction l with
  | nil => intro lastT _; simp [mlSum]
  | cons s rest ih =>
    intro lastT hall
    by_cases h : s.t - lastT ≤ 0
    · have := ih s.t (by simpa [contributingSamples, h] using hall)
      simpa [mlSum, h] using this
    · have hs := hall s (by simp [contributingSamples, h])
      have hterm : 0 ≤ (s.Cin - s.Cout) * s.Q * (s.t - lastT) := by
        have h1 : 0 < s.Cin - s.Cout := by linarith [hs.1]
        have h2 : 0 < s.t - lastT := by linarith
        exact le_of_lt (mul_pos (mul_pos h1 hs.2) h2)
      have htail := ih s.t (by
        intro x hx
        exact hall x (by simp [contributingSamples, h, hx]))
      simp only [mlSum, if_neg h]
      linarith

theorem mlSum_pos :
    ∀ (l : List Sample) (lastT : ℚ),
      contributingSamples lastT l ≠ [] →
      (∀ s ∈ contributingSamples lastT l, s.Cout < s.Cin ∧ 0 < s.Q) →
      0 < mlSum lastT l := by
  intro l
  induction l with
  | nil => intro lastT hne _; simp [contributingSamples] at hne
  | cons s rest ih =>
    intro lastT hne hall
    by_cases h : s.t - lastT ≤ 0
    · have := ih s.t (by simpa [contributingSamples, h] using hne)
        (by simpa [contributingSamples, h] using hall)
      simpa [mlSum, h] using this
    · have hs := hall s (by simp [contributingSamples, h])
      have hterm : 0 < (s.Cin - s.Cout) * s.Q * (s.t - lastT) := by
        have h1 : 0 < s.Cin - s.Cout := by linarith [hs.1]
        have h2 : 0 < s.t - lastT := by linarith
        exact mul_pos (mul_pos h1 hs.2) h2
      have htail := mlSum_nonneg rest s.t (by
        intro x hx
        exact hall x (by simp [contributingSamples, h, hx]))
      simp only [mlSum, if_neg h]
      linarith

theorem mlSum_nonpos :
    ∀ (l : List Sample) (lastT : ℚ),
      (∀ s ∈ contributingSamples lastT l, s.Cin < s.Cout ∧ 0 < s.Q) →
      mlSum lastT l ≤ 0 := by
  intro l
  induction l with
  | nil => intro lastT _; simp [mlSum]
  | cons s rest ih =>
    intro lastT hall
    by_cases h : s.t - lastT ≤ 0
    · have := ih s.t (by simpa [contributingSamples, h] using hall)
      simpa [mlSum, h] using this
    · have hs := hall s (by simp [contributingSamples, h])
      have hterm : (s.Cin - s.Cout) * s.Q * (s.t - lastT) ≤ 0 := by
        have h1 : s.Cin - s.Cout < 0 := by linarith [hs.1]
        have h2 : 0 < s.t - lastT := by linarith
        have h3 : 0 < s.Q * (s.t - lastT) := mul_pos hs.2 h2
        nlinarith
      have htail := ih s.t (by
        intro x hx
        exact hall x (by simp [contributingSamples, h, hx]))
      simp only [mlSum, if_neg h]
      linarith

theorem mlSum_neg :
    ∀ (l : List Sample) (lastT : ℚ),
      contributingSamples lastT l ≠ [] →
      (∀ s ∈ contributingSamples lastT l, s.Cin < s.Cout ∧ 0 < s.Q) →
      mlSum lastT l < 0 := by
  intro l
  induction l with
  | nil => intro lastT hne _; simp [contributingSamples] at hne
  | cons s rest ih =>
    intro lastT hne hall
    by_cases h : s.t - lastT ≤ 0
    · have := ih s.t (by simpa [contributingSamples, h] using hne)
        (by simpa [contributingSamples, h] using hall)
      simpa [mlSum, h] using this
    · have hs := hall s (by simp [contributingSamples, h])
      have hterm : (s.Cin - s.Cout) * s.Q * (s.t - lastT) < 0 := by
        have h1 : s.Cin - s.Cout < 0 := by linarith [hs.1]
        have h2 : 0 < s.t - lastT := by linarith
        have h3 : 0 < s.Q * (s.t - lastT) := mul_pos hs.2 h2
        nlinarith
      have htail := mlSum_nonpos rest s.t (by
        intro x hx
        exact hall x (by simp [contributingSamples, h, hx]))
      simp only [mlSum, if_neg h]
      linarith

end Ceim

namespace Ceim

/-- Field splitting as done by the repeated `std::getline(ss, field, ',')`
loop of `loadTimeSeriesCSV` (qpudata_csv.cpp, lines 140-145): fields are
separated by commas, and a final comma followed by nothing yields no
further field (the next `getline` fails at end of input). -/
def splitFields : List Char → List Char → List String
  | [], cur => [String.mk cur.reverse]
  | [','], cur => [String.mk cur.reverse]
  | ',' :: rest, cur => String.mk cur.reverse :: splitFields rest []
  | c :: rest, cur => splitFields rest (c :: cur)

/-- The comma-separated fields of one line; an empty line has no fields
(the first `getline` from an empty stream fails). -/
def splitRecord (line : String) : List String :=
  match line.data with
  | [] => []
  | cs => splitFields cs []

/-- Digit run to a natural number, most significant first. -/
def digitsToNat (l : List Char) : ℕ :=
  l.foldl (fun a c => 10 * a + (c.toNat - 48)) 0

/-- Modelled after `std::stod` on ordinary decimal input: skip leading
whitespace, then an optional sign, digits with an optional fractional
part, and an optional exponent; trailing characters are ignored (prefix
parsing, so an incomplete exponent falls back to the mantissa).  `none`
models the case where no initial conversion is possible, in which
`std::stod` throws `std::invalid_argument`.  Hexadecimal, infinity and
NaN forms are not modelled. -/
def stod (str : String) : Option ℚ :=
  let cs0 := str.data.dropWhile Char.isWhitespace
  let sign : ℚ :=
    match cs0 with
    | '-' :: _ => -1
    | _ => 1
  let cs1 : List Char :=
    match cs0 with
    | '-' :: rest => rest
    | '+' :: rest => rest
    | rest => rest
  let ipart := cs1.takeWhile Char.isDigit
  let cs2 := cs1.dropWhile Char.isDigit
  let fpart : List Char :=
    match cs2 with
    | '.' :: rest => rest.takeWhile Char.isDigit
    | _ => []
  let cs3 : List Char :=
    match cs2 with
    | '.' :: rest => rest.dropWhile Char.isDigit
    | rest => rest
  if ipart.isEmpty && fpart.isEmpty then none
  else
    let mant : ℚ :=
      sign * ((digitsToNat ipart : ℚ) +
        (digitsToNat fpart : ℚ) / (10 : ℚ) ^ fpart.length)
    let expv : ℤ :=
      match cs3 with
      | c :: rest =>
        if c = 'e' ∨ c = 'E' then
          let esign : ℤ :=
            match rest with
            | '-' :: _ => -1
            | _ => 1
          let rest2 : List Char :=
            match rest with
            | '-' :: r => r
            | '+' :: r => r
            | r => r
          let edigits := rest2.takeWhile Char.isDigit
          if edigits.isEmpty then 0 else esign * (digitsToNat edigits : ℤ)
        else 0
      | [] => 0
    some (mant * (10 : ℚ) ^ expv)

/-- Outcome of one data row inside `loadTimeSeriesCSV`: silently skipped,
a thrown `std::stod` exception, or a sample appended under its key. -/
inductive RowOutcome where
  | skip : RowOutcome
  | err : RowOutcome
  | ok : String → Sample → RowOutcome
deriving DecidableEq, Repr

/-- One iteration of the row loop of `loadTimeSeriesCSV`
(qpudata_csv.cpp, lines 134-161): empty lines and rows with fewer than
six comma-separated fields are skipped; fields 2..5 go through
`std::stod`, whose failure throws out of the whole call; otherwise the
sample is appended under the key `fields[0] + ":" + fields[1]`.  Fields
beyond index 5 are ignored. -/
def processRow (line : String) : RowOutcome :=
  if line = "" then .skip
  else
    match splitRecord line with
    | f0 :: f1 :: f2 :: f3 :: f4 :: f5 :: _ =>
      match stod f2, stod f3, stod f4, stod f5 with
      | some t, some cin, some cout, some q =>
        .ok (f0 ++ ":" ++ f1) ⟨t, cin, cout, q⟩
      | _, _, _, _ => .err
    | _ => .skip

/-- The keyed sample a row contributes, if any. -/
def okRow (line : String) : Option (String × Sample) :=
  match processRow line with
  | .ok k s => some (k, s)
  | _ => none

/-- The row loop of `loadTimeSeriesCSV` over the data lines, with the
keyed samples appended so far; a `std::stod` exception aborts the pass. -/
def processRows : List String → List (String × Sample) →
    Except String (List (String × Sample))
  | [], acc => .ok acc
  | line :: rest, acc =>
    match processRow line with
    | .skip => processRows rest acc
    | .err => .error ("invalid numeric field in row: " ++ line)
    | .ok k s => processRows rest (acc ++ [(k, s)])

/-- Mirror of `loadTimeSeriesCSV` (qpudata_csv.cpp, lines 126-163) over
the list of input lines: the first line is discarded as an assumed
header (an empty file loads nothing), and the remaining lines run through
the row loop.  The map is modelled by the ordered list of keyed samples;
`seriesOf` reads one key's series off it. -/
def loadTimeSeriesCSV (lines : List String) :
    Except String (List (String × Sample)) :=
  match lines with
  | [] => .ok []
  | _ :: rows => processRows rows []

/-- The series stored under one composite key, in stored order: the model
of `byKey[key]` after ingestion. -/
def seriesOf (key : String) (entries : List (String × Sample)) :
    List Sample :=
  entries.filterMap (fun e => if e.1 = key then some e.2 else none)

theorem processRows_ok :
    ∀ (rows : List String) (acc : List (String × Sample)),
      (∀ l ∈ rows, processRow l ≠ RowOutcome.err) →
      processRows rows acc = Except.ok (acc ++ rows.filterMap okRow) := by
  intro rows
  induction rows with
  | nil => intro acc _; simp [processRows]
  | cons l rest ih =>
    intro acc hok
    have hl := hok l (by simp)
    have hrest : ∀ x ∈ rest, processRow x ≠ RowOutcome.err :=
      fun x hx => hok x (by simp [hx])
    cases hpr : processRow l with
    | skip =>
      have hnone : okRow l = none := by simp [okRow, hpr]
      simp [processRows, hpr, ih _ hrest, List.filterMap_cons, hnone]
    | err => exact absurd hpr hl
    | ok k s =>
      have hsome : okRow l = some (k, s) := by simp [okRow, hpr]
      simp [processRows, hpr, ih _ hrest, List.filterMap_cons, hsome]

theorem processRows_err :
    ∀ (rows : List String) (acc : List (String × Sample)),
      (∃ l ∈ rows, processRow l = RowOutcome.err) →
      ∃ e, processRows rows acc = Except.error e := by
  intro rows
  induction rows with
  | nil => intro acc h; simp at h
  | cons l rest ih =>
    intro acc h
    cases hpr : processRow l with
    | err =>
      exact ⟨"invalid numeric field in row: " ++ l, by simp [processRows, hpr]⟩
    | skip =>
      rcases h with ⟨x, hx, hxe⟩
      rcases List.mem_cons.mp hx with rfl | hx2
      · rw [hpr] at hxe; simp at hxe
      · exact (ih acc ⟨x, hx2, hxe⟩).imp (fun e he => by
          simpa [processRows, hpr] using he)
    | ok k s =>
      rcases h with ⟨x, hx, hxe⟩
      rcases List.mem_cons.mp hx with rfl | hx2
      · rw [hpr] at hxe; simp at hxe
      · exact (ih (acc ++ [(k, s)]) ⟨x, hx2, hxe⟩).imp (fun e he => by
          simpa [processRows, hpr] using he)

theorem processRow_err_of_bad (row : String) (f0 f1 f2 f3 f4 f5 : String)
    (frest : List String) (hne : row ≠ "")
    (hsplit : splitRecord row = f0 :: f1 :: f2 :: f3 :: f4 :: f5 :: frest)
    (hbad : stod f2 = none ∨ stod f3 = none ∨ stod f4 = none ∨
      stod f5 = none) :
    processRow row = RowOutcome.err := by
  unfold processRow
  rw [if_neg hne, hsplit]
  rcases hbad with h | h | h | h <;>
    cases h2 : stod f2 <;> cases h3 : stod f3 <;>
      cases h4 : stod f4 <;> cases h5 : stod f5 <;>
        simp_all

theorem processRow_ok_shape (l : String) (k : String) (s : Sample)
    (h : processRow l = RowOutcome.ok k s) :
    l ≠ "" ∧ ∃ f0 f1 f2 f3 f4 f5 frest,
      splitRecord l = f0 :: f1 :: f2 :: f3 :: f4 :: f5 :: frest ∧
      k = f0 ++ ":" ++ f1 ∧ stod f2 = some s.t ∧ stod f3 = some s.Cin ∧
      stod f4 = some s.Cout ∧ stod f5 = some s.Q := by
  by_cases hemp : l = ""
  · rw [hemp] at h ⊢; simp [processRow] at h
  · refine ⟨hemp, ?_⟩
    rcases hsp : splitRecord l with
      _ | ⟨f0, _ | ⟨f1, _ | ⟨f2, _ | ⟨f3, _ | ⟨f4, _ | ⟨f5, frest⟩⟩⟩⟩⟩⟩ <;>
      simp only [processRow, if_neg hemp, hsp] at h
    · exact absurd h (by simp)
    · exact absurd h (by simp)
    · exact absurd h (by simp)
    · exact absurd h (by simp)
    · exact absurd h (by simp)
    · exact absurd h (by simp)
    · cases h2 : stod f2 <;> cases h3 : stod f3 <;>
        cases h4 : stod f4 <;> cases h5 : stod f5 <;>
          rw [h2, h3, h4, h5] at h <;> simp at h
      rcases h with ⟨hk, hs⟩
      subst hk
      subst hs
      exact ⟨f0, f1, f2, f3, f4, f5, frest, rfl, rfl, h2, h3, h4, h5⟩

theorem okRow_eq_some (l : String) (k : String) (s : Sample)
    (h : okRow l = some (k, s)) : processRow l = RowOutcome.ok k s := by
  unfold okRow at h
  cases hpr : processRow l with
  | skip => rw [hpr] at h; simp at h
  | err => rw [hpr] at h; simp at h
  | ok k2 s2 =>
    rw [hpr] at h
    simp at h
    rw [h.1, h.2]

/-- C8: a data row with at least six fields whose `t`, `Cin`, `Cout` or
`Q` field has no valid numeric conversion makes the whole ingestion call
fail with a propagated error; the row is neither skipped nor defaulted. -/
theorem claim8_malformed_numeric_fails (hdr row : String)
    (rows : List String) (hmem : row ∈ rows)
    (f0 f1 f2 f3 f4 f5 : String) (frest : List String) (hne : row ≠ "")
    (hsplit : splitRecord row = f0 :: f1 :: f2 :: f3 :: f4 :: f5 :: frest)
    (hbad : stod f2 = none ∨ stod f3 = none ∨ stod f4 = none ∨
      stod f5 = none) :
    ∃ e, loadTimeSeriesCSV (hdr :: rows) = Except.error e := by
  have herr := processRow_err_of_bad row f0 f1 f2 f3 f4 f5 frest hne
    hsplit hbad
  have hres := processRows_err rows [] ⟨row, hmem, herr⟩
  simpa [loadTimeSeriesCSV] using hres

/-- Witness for C8: a malformed `t` field aborts the load. -/
theorem claim8_malformed_numeric_fails_witness :
    ∃ e, loadTimeSeriesCSV
      ["node_id,contaminant,t,Cin,Cout,Q", "n,c,x,1,2,3"] =
        Except.error e :=
  claim8_malformed_numeric_fails "node_id,contaminant,t,Cin,Cout,Q"
    "n,c,x,1,2,3" ["n,c,x,1,2,3"] (by simp) "n" "c" "x" "1" "2" "3" []
    (by simp) (by decide) (Or.inl (by decide))

/-- C9: with no malformed numeric field, ingestion discards the first
line as a header, silently skips empty lines and rows with fewer than six
fields, ignores fields beyond index 5, and appends each remaining row as
a sample under the key `nodeId ++ ":" ++ contaminantId`, preserving the
rows' input order within each key. -/
theorem claim9_ingestion_shape (hdr hdr2 : String) (rows : List String)
    (hok : ∀ l ∈ rows, processRow l ≠ RowOutcome.err) :
    loadTimeSeriesCSV (hdr :: rows) =
      Except.ok (rows.filterMap okRow) ∧
    loadTimeSeriesCSV (hdr :: rows) = loadTimeSeriesCSV (hdr2 :: rows) ∧
    (∀ l ∈ rows, l = "" → okRow l = none) ∧
    (∀ l ∈ rows, (splitRecord l).length < 6 → okRow l = none) ∧
    (∀ l ∈ rows, ∀ k s, okRow l = some (k, s) →
      ∃ f0 f1 f2 f3 f4 f5 frest,
        splitRecord l = f0 :: f1 :: f2 :: f3 :: f4 :: f5 :: frest ∧
        k = f0 ++ ":" ++ f1 ∧ stod f2 = some s.t ∧ stod f3 = some s.Cin ∧
        stod f4 = some s.Cout ∧ stod f5 = some s.Q) ∧
    (∀ key, seriesOf key (rows.filterMap okRow) =
      rows.filterMap (fun l => (okRow l).bind
        (fun e => if e.1 = key then some e.2 else none))) := by
  refine ⟨?_, ?_, ?_, ?_, ?_, ?_⟩
  · simp [loadTimeSeriesCSV, processRows_ok rows [] hok]
  · simp [loadTimeSeriesCSV]
  · intro l _ hl
    simp [okRow, processRow, hl]
  · intro l _ hlen
    by_cases hemp : l = ""
    · simp [okRow, processRow, hemp]
    · rcases hsp : splitRecord l with
        _ | ⟨f0, _ | ⟨f1, _ | ⟨f2, _ | ⟨f3, _ | ⟨f4, _ | ⟨f5, frest⟩⟩⟩⟩⟩⟩ <;>
        first
          | (exfalso
             rw [hsp] at hlen
             simp only [List.length_cons] at hlen
             omega)
          | simp [okRow, processRow, hemp, hsp]
  · intro l _ k s hrow
    exact (processRow_ok_shape l k s (okRow_eq_some l k s hrow)).2
  · intro key
    exact List.filterMap_filterMap okRow
      (fun e => if e.1 = key then some e.2 else none) rows

/-- Witness for C9: one well-formed row, one short row and one empty
line. -/
theorem claim9_ingestion_shape_witness :
    loadTimeSeriesCSV ["hdr", "n,c,1,2,3,4", "short,row", ""] =
      Except.ok (["n,c,1,2,3,4", "short,row", ""].filterMap okRow) ∧
    loadTimeSeriesCSV ["hdr", "n,c,1,2,3,4", "short,row", ""] =
      loadTimeSeriesCSV ["other", "n,c,1,2,3,4", "short,row", ""] ∧
    (∀ l ∈ ["n,c,1,2,3,4", "short,row", ""], l = "" → okRow l = none) ∧
    (∀ l ∈ ["n,c,1,2,3,4", "short,row", ""],
      (splitRecord l).length < 6 → okRow l = none) ∧
    (∀ l ∈ ["n,c,1,2,3,4", "short,row", ""], ∀ k s,
      okRow l = some (k, s) →
      ∃ f0 f1 f2 f3 f4 f5 frest,
        splitRecord l = f0 :: f1 :: f2 :: f3 :: f4 :: f5 :: frest ∧
        k = f0 ++ ":" ++ f1 ∧ stod f2 = some s.t ∧ stod f3 = some s.Cin ∧
        stod f4 = some s.Cout ∧ stod f5 = some s.Q) ∧
    (∀ key, seriesOf key
        (["n,c,1,2,3,4", "short,row", ""].filterMap okRow) =
      ["n,c,1,2,3,4", "short,row", ""].filterMap (fun l => (okRow l).bind
        (fun e => if e.1 = key then some e.2 else none))) :=
  claim9_ingestion_shape "hdr" "other" ["n,c,1,2,3,4", "short,row", ""]
    (by decide)

/-- C1: for a series with strictly increasing timestamps and `Cref > 0`,
`Kn` and `massLoad` equal the closed-form piecewise sums over consecutive
sample pairs; the first sample contributes nothing. -/
theorem claim1_closed_form (node : NodeConfig) (cfg : ContaminantConfig)
    (s0 : Sample) (rest : List Sample)
    (hchain : List.Chain' (fun a b : Sample => a.t < b.t) (s0 :: rest))
    (hc : 0 < cfg.Cref) :
    (computeNodeImpact node cfg (s0 :: rest)).Kn =
      specKn cfg.w cfg.Cref s0 rest ∧
    (computeNodeImpact node cfg (s0 :: rest)).massLoad =
      specMassLoad s0 rest := by
  rcases computeNodeImpact_fields node cfg s0 rest hc with ⟨hk, hm⟩
  rcases sums_of_chain cfg.w cfg.Cref rest s0 hchain with ⟨hk2, hm2⟩
  constructor
  · rw [hk]; simp [knSum, hk2]
  · rw [hm]; simp [mlSum, hm2]

/-- Witness for C1 at a two-sample strictly increasing series. -/
theorem claim1_closed_form_witness :
    (computeNodeImpact ⟨"CAP-LP", "PFBS", 1⟩ ⟨"PFBS", 2, 4⟩
        [⟨0, 2, 1, 1⟩, ⟨10, 3, 1, 2⟩]).Kn =
      specKn 2 4 ⟨0, 2, 1, 1⟩ [⟨10, 3, 1, 2⟩] ∧
    (computeNodeImpact ⟨"CAP-LP", "PFBS", 1⟩ ⟨"PFBS", 2, 4⟩
        [⟨0, 2, 1, 1⟩, ⟨10, 3, 1, 2⟩]).massLoad =
      specMassLoad ⟨0, 2, 1, 1⟩ [⟨10, 3, 1, 2⟩] :=
  claim1_closed_form ⟨"CAP-LP", "PFBS", 1⟩ ⟨"PFBS", 2, 4⟩ ⟨0, 2, 1, 1⟩
    [⟨10, 3, 1, 2⟩]
    (by simp [List.chain'_cons, List.chain'_singleton])
    (by norm_num)

/-- C3: a sample with non-positive `dt` contributes nothing but still
moves the previous-timestamp anchor to its own timestamp; a single-sample
series and a two-sample series with identical timestamps both give the
zero result. -/
theorem claim3_nonpositive_dt (node : NodeConfig) (cfg : ContaminantConfig)
    (lastT Kn massLoad : ℚ) (s s1 s2 : Sample) (rest : List Sample)
    (hdt : s.t - lastT ≤ 0) (hts : s1.t = s2.t) (hc : 0 < cfg.Cref) :
    integrateLoop cfg.w cfg.Cref lastT Kn massLoad (s :: rest) =
      integrateLoop cfg.w cfg.Cref s.t Kn massLoad rest ∧
    computeNodeImpact node cfg [s1] =
      ⟨node.nodeId, cfg.id, 0, 0⟩ ∧
    computeNodeImpact node cfg [s1, s2] = computeNodeImpact node cfg [s1] := by
  have hnot : ¬ cfg.Cref ≤ 0 := not_le.mpr hc
  refine ⟨?_, ?_, ?_⟩
  · simp [integrateLoop, hdt]
  · simp [computeNodeImpact, hnot, integrateLoop]
  · simp [computeNodeImpact, hnot, integrateLoop, hts]

/-- Witness for C3 at concrete samples with a zero and a negative `dt`. -/
theorem claim3_nonpositive_dt_witness :
    integrateLoop 1 4 5 0 0 [⟨3, 2, 1, 1⟩, ⟨9, 2, 1, 1⟩] =
      integrateLoop 1 4 3 0 0 [⟨9, 2, 1, 1⟩] ∧
    computeNodeImpact ⟨"CAP-LP", "PFBS", 1⟩ ⟨"PFBS", 1, 4⟩ [⟨7, 2, 1, 1⟩] =
      ⟨"CAP-LP", "PFBS", 0, 0⟩ ∧
    computeNodeImpact ⟨"CAP-LP", "PFBS", 1⟩ ⟨"PFBS", 1, 4⟩
        [⟨7, 2, 1, 1⟩, ⟨7, 6, 1, 3⟩] =
      computeNodeImpact ⟨"CAP-LP", "PFBS", 1⟩ ⟨"PFBS", 1, 4⟩ [⟨7, 2, 1, 1⟩] :=
  claim3_nonpositive_dt ⟨"CAP-LP", "PFBS", 1⟩ ⟨"PFBS", 1, 4⟩ 5 0 0
    ⟨3, 2, 1, 1⟩ ⟨7, 2, 1, 1⟩ ⟨7, 6, 1, 3⟩ [⟨9, 2, 1, 1⟩]
    (by norm_num) (by norm_num) (by norm_num)

/-- C6: with `w > 0`, `Cref > 0` and at least one contributing sample, if
every contributing sample has `Cin > Cout` and `Q > 0` then both `Kn` and
`massLoad` are positive, and if every contributing sample has `Cin < Cout`
and `Q > 0` then both are negative. -/
theorem claim6_sign (node : NodeConfig) (cfg : ContaminantConfig)
    (s0 : Sample) (rest : List Sample)
    (hw : 0 < cfg.w) (hc : 0 < cfg.Cref)
    (hne : contributingSamples s0.t (s0 :: rest) ≠ []) :
    ((∀ s ∈ contributingSamples s0.t (s0 :: rest), s.Cout < s.Cin ∧ 0 < s.Q) →
      0 < (computeNodeImpact node cfg (s0 :: rest)).Kn ∧
      0 < (computeNodeImpact node cfg (s0 :: rest)).massLoad) ∧
    ((∀ s ∈ contributingSamples s0.t (s0 :: rest), s.Cin < s.Cout ∧ 0 < s.Q) →
      (computeNodeImpact node cfg (s0 :: rest)).Kn < 0 ∧
      (computeNodeImpact node cfg (s0 :: rest)).massLoad < 0) := by
  rcases computeNodeImpact_fields node cfg s0 rest hc with ⟨hk, hm⟩
  have hdiv : 0 < cfg.w / cfg.Cref := div_pos hw hc
  constructor
  · intro hall
    have hml := mlSum_pos (s0 :: rest) s0.t hne hall
    refine ⟨?_, by rw [hm]; exact hml⟩
    rw [hk, knSum_eq_div_mul]
    exact mul_pos hdiv hml
  · intro hall
    have hml := mlSum_neg (s0 :: rest) s0.t hne hall
    refine ⟨?_, by rw [hm]; exact hml⟩
    rw [hk, knSum_eq_div_mul]
    exact mul_neg_of_pos_of_neg hdiv hml

/-- Witness for C6 at a series with one contributing cleaner-outflow
sample. -/
theorem claim6_sign_witness :
    ((∀ s ∈ contributingSamples (Sample.t ⟨0, 5, 1, 2⟩)
        [⟨0, 5, 1, 2⟩, ⟨1, 3, 1, 1⟩], s.Cout < s.Cin ∧ 0 < s.Q) →
      0 < (computeNodeImpact ⟨"CAP-LP", "PFBS", 1⟩ ⟨"PFBS", 1, 4⟩
        [⟨0, 5, 1, 2⟩, ⟨1, 3, 1, 1⟩]).Kn ∧
      0 < (computeNodeImpact ⟨"CAP-LP", "PFBS", 1⟩ ⟨"PFBS", 1, 4⟩
        [⟨0, 5, 1, 2⟩, ⟨1, 3, 1, 1⟩]).massLoad) ∧
    ((∀ s ∈ contributingSamples (Sample.t ⟨0, 5, 1, 2⟩)
        [⟨0, 5, 1, 2⟩, ⟨1, 3, 1, 1⟩], s.Cin < s.Cout ∧ 0 < s.Q) →
      (computeNodeImpact ⟨"CAP-LP", "PFBS", 1⟩ ⟨"PFBS", 1, 4⟩
        [⟨0, 5, 1, 2⟩, ⟨1, 3, 1, 1⟩]).Kn < 0 ∧
      (computeNodeImpact ⟨"CAP-LP", "PFBS", 1⟩ ⟨"PFBS", 1, 4⟩
        [⟨0, 5, 1, 2⟩, ⟨1, 3, 1, 1⟩]).massLoad < 0) :=
  claim6_sign ⟨"CAP-LP", "PFBS", 1⟩ ⟨"PFBS", 1, 4⟩ ⟨0, 5, 1, 2⟩
    [⟨1, 3, 1, 1⟩] (by norm_num) (by norm_num)
    (by simp [contributingSamples])

/-- C10: for `Cref > 0`, the two outputs satisfy the exact proportionality
`Kn = (w / Cref) * massLoad` for every node and series. -/
theorem claim10_proportionality (node : NodeConfig) (cfg : ContaminantConfig)
    (series : List Sample) (hc : 0 < cfg.Cref) :
    (computeNodeImpact node cfg series).Kn =
      (cfg.w / cfg.Cref) * (computeNodeImpact node cfg series).massLoad := by
  cases series with
  | nil => simp [computeNodeImpact]
  | cons s0 rest =>
    rcases computeNodeImpact_fields node cfg s0 rest hc with ⟨hk, hm⟩
    rw [hk, hm, knSum_eq_div_mul]

/-- Witness for C10 at a concrete series and configuration. -/
theorem claim10_proportionality_witness :
    (computeNodeImpact ⟨"GILA-KELVIN", "TP", 1⟩ ⟨"TP", 2, 5⟩
        [⟨0, 4, 1, 2⟩, ⟨3, 9, 2, 1⟩]).Kn =
      ((2 : ℚ) / 5) * (computeNodeImpact ⟨"GILA-KELVIN", "TP", 1⟩ ⟨"TP", 2, 5⟩
        [⟨0, 4, 1, 2⟩, ⟨3, 9, 2, 1⟩]).massLoad :=
  claim10_proportionality ⟨"GILA-KELVIN", "TP", 1⟩ ⟨"TP", 2, 5⟩
    [⟨0, 4, 1, 2⟩, ⟨3, 9, 2, 1⟩] (by norm_num)

/-- C2: on an empty series or a non-positive `Cref`, `computeNodeImpact`
returns `Kn = 0` and `massLoad = 0` immediately, whatever the samples. -/
theorem claim2_degenerate_zero (node : NodeConfig) (cfg : ContaminantConfig)
    (series : List Sample) (h : series = [] ∨ cfg.Cref ≤ 0) :
    (computeNodeImpact node cfg series).Kn = 0 ∧
    (computeNodeImpact node cfg series).massLoad = 0 := by
  rcases h with h | h
  · subst h; simp [computeNodeImpact]
  · cases series with
    | nil => simp [computeNodeImpact]
    | cons s0 rest => simp [computeNodeImpact, if_pos h]

/-- Witness for C2 at the empty series and at `Cref = 0`. -/
theorem claim2_degenerate_zero_witness :
    (computeNodeImpact ⟨"CAP-LP", "PFBS", 1⟩ ⟨"PFBS", 1, 4⟩ []).Kn = 0 ∧
    (computeNodeImpact ⟨"CAP-LP", "PFBS", 1⟩ ⟨"PFBS", 1, 4⟩ []).massLoad = 0 :=
  claim2_degenerate_zero ⟨"CAP-LP", "PFBS", 1⟩ ⟨"PFBS", 1, 4⟩ [] (Or.inl rfl)

/-- C4: scenario A of the spec and of test_ceim_core.cpp: three samples at
t = 0, 3600, 7200 with Cin = 20, Cout = 10, Q = 1, and `Cref = 10`,
`w = 1`, give `Kn = 7200` and `massLoad = 72000`. -/
theorem claim4_scenario_a :
    computeNodeImpact ⟨"TEST-NODE", "TEST-C", 1000000⟩ ⟨"TEST-C", 1, 10⟩
      [⟨0, 20, 10, 1⟩, ⟨3600, 20, 10, 1⟩, ⟨7200, 20, 10, 1⟩] =
      ⟨"TEST-NODE", "TEST-C", 7200, 72000⟩ := by
  norm_num [computeNodeImpact, integrateLoop]

/-- C5: the engine is a total pure function of its inputs; for every input
shape it returns a well-formed result record carrying the node and
contaminant identifiers. -/
theorem claim5_total_wellformed (node : NodeConfig) (cfg : ContaminantConfig)
    (series : List Sample) :
    (computeNodeImpact node cfg series).nodeId = node.nodeId ∧
    (computeNodeImpact node cfg series).contaminantId = cfg.id := by
  cases series with
  | nil => simp [computeNodeImpact]
  | cons s0 rest =>
    by_cases h : cfg.Cref ≤ 0 <;> simp [computeNodeImpact, h]

/-- C7: only `nodeId` of the node configuration influences the result;
two nodes agreeing on `nodeId` give identical result records. -/
theorem claim7_node_fields_unused (n1 n2 : NodeConfig)
    (cfg : ContaminantConfig) (series : List Sample)
    (h : n1.nodeId = n2.nodeId) :
    computeNodeImpact n1 cfg series = computeNodeImpact n2 cfg series := by
  cases series with
  | nil => simp [computeNodeImpact, h]
  | cons s0 rest =>
    by_cases hc : cfg.Cref ≤ 0 <;> simp [computeNodeImpact, hc, h]

/-- Witness for C7: two nodes sharing an id but differing in contaminant
id and volume give the same result. -/
theorem claim7_node_fields_unused_witness :
    computeNodeImpact ⟨"CAP-LP", "PFBS", 1200000⟩ ⟨"PFBS", 1, 4⟩
        [⟨0, 2, 1, 1⟩, ⟨10, 3, 1, 2⟩] =
      computeNodeImpact ⟨"CAP-LP", "Ecoli", 55⟩ ⟨"PFBS", 1, 4⟩
        [⟨0, 2, 1, 1⟩, ⟨10, 3, 1, 2⟩] :=
  claim7_node_fields_unused ⟨"CAP-LP", "PFBS", 1200000⟩ ⟨"CAP-LP", "Ecoli", 55⟩
    ⟨"PFBS", 1, 4⟩ [⟨0, 2, 1, 1⟩, ⟨10, 3, 1, 2⟩] rfl

end Ceim
